import Mathlib

/-!
Shallow embedding of the Agent Runtime Core of `src-tauri/src/services/process_service.rs`
(together with the enums of `src-tauri/src/types/agent.rs`), and proofs of the
specification claims about it.

Conventions of the embedding:
* Rust byte (`u8`) values are `Nat`s; byte vectors (`Vec<u8>`) are `List Nat`.
* Rust `&str` / `String` text that the prompt heuristic inspects character by
  character is `List Char`; opaque identifier strings (agent ids, session ids,
  argv entries) are Lean `String`s.
* `std::time::Instant` values are `Nat` ticks (seconds); `Instant::elapsed`
  becomes truncated subtraction `now - t`.
* Channel handles (`mpsc::UnboundedSender`, `broadcast::Sender`) are modelled
  by small records carrying exactly the observable state the code consults.
* Fallible operations return `Except ProcessError _`; functions that also
  mutate the registry return the new registry and the list of `ProcessEvent`s
  emitted during the call, in emission order.
-/

namespace CCManager

/-- Maximum size of the per-agent PTY replay buffer (1 MB), from
`process_service.rs` line 21: `const PTY_BUFFER_MAX_BYTES: usize = 1_024 * 1_024`. -/
def PTY_BUFFER_MAX_BYTES : Nat := 1024 * 1024

/-- Agent status enum. `types/agent.rs` declares `Running | Waiting | Error | Finished`;
`process_service.rs` additionally refers to an `Idle` variant (hook reasons and the
idle monitor), so the embedding carries the union of the variants the runtime core uses. -/
inductive AgentStatus
  | Running
  | Waiting
  | Error
  | Finished
  | Idle
deriving DecidableEq, Repr

/-- Agent mode enum, `types/agent.rs`. -/
inductive AgentMode
  | Auto
  | Plan
  | Regular
deriving DecidableEq, Repr

/-- Permission enum, `types/agent.rs`. -/
inductive Permission
  | Read
  | Write
  | Execute
deriving DecidableEq, Repr

/-- Error enum `ProcessError`, `process_service.rs` lines 23-33. -/
inductive ProcessError
  | AgentNotFound (agent_id : String)
  | AlreadyRunning (agent_id : String)
  | SpawnFailed (reason : String)
  | Io (reason : String)
deriving DecidableEq, Repr

/-- Events emitted by the process manager, `process_service.rs` lines 36-61. -/
inductive ProcessEvent
  | Output (agent_id : String) (content : String) (is_complete : Bool)
  | Status (agent_id : String) (status : AgentStatus) (reason : Option String)
  | Context (agent_id : String) (level : Int)
  | Error (agent_id : String) (message : String)
  | Exit (agent_id : String) (code : Option Int) (signal : Option String)
deriving DecidableEq, Repr

/-- A running agent process (PTY-backed), `process_service.rs` lines 64-68.
The `child` handle is modelled by the one bit of child state the runtime core
observes: whether the child has already terminated.  The `pty_master` handle
carries no state the claims consult. -/
structure AgentProcess where
  pid : Nat
  childExited : Bool
deriving DecidableEq, Repr

/-- Handle to the PTY input mpsc channel (`input_tx`).  `send` on it fails
exactly when the receiving writer task is gone, which the model records as
`closed`. -/
structure InputTx where
  closed : Bool
deriving DecidableEq, Repr

/-- Consolidated per-agent runtime state `AgentRuntime`, `process_service.rs`
lines 71-82.  `broadcast_tx` is an opaque channel handle (a numeric tag). -/
structure AgentRuntime where
  process : Option AgentProcess
  input_tx : Option InputTx
  broadcast_tx : Option Nat
  pty_buffer : List Nat
  last_output_time : Option Nat
  is_idle : Bool
  session_id : Option String
  hook_status_time : Option Nat
deriving DecidableEq, Repr

/-- Clear active process state while preserving the PTY buffer for terminal
replay, `AgentRuntime::clear_active`, `process_service.rs` lines 86-94. -/
def AgentRuntime.clear_active (r : AgentRuntime) : AgentRuntime :=
  { r with
    process := none
    input_tx := none
    broadcast_tx := none
    last_output_time := none
    is_idle := false
    hook_status_time := none }

/-- The all-`None` runtime record inserted by `or_insert_with` on first contact
with an agent id, `process_service.rs` lines 240-249. -/
def rtInit : AgentRuntime :=
  { process := none
    input_tx := none
    broadcast_tx := none
    pty_buffer := []
    last_output_time := none
    is_idle := false
    session_id := none
    hook_status_time := none }

/-- The registry map `agents : HashMap<String, AgentRuntime>` is modelled as an
association list with unique keys supplied by construction. -/
abbrev Registry := List (String × AgentRuntime)

/-- `HashMap::get` / lookup by agent id. -/
def findRt : Registry → String → Option AgentRuntime
  | [], _ => none
  | (k, v) :: rest, key => if k = key then some v else findRt rest key

/-- `HashMap::get_mut` followed by a field update: replaces the entry when the
key is present and is a no-op otherwise. -/
def setEntry : Registry → String → AgentRuntime → Registry
  | [], _, _ => []
  | (k, w) :: rest, key, v =>
      if k = key then (k, v) :: rest else (k, w) :: setEntry rest key v

/-- `HashMap::entry(key).or_insert_with(default)` followed by a field update:
replaces the entry when present, appends it otherwise. -/
def setOrInsert : Registry → String → AgentRuntime → Registry
  | [], key, v => [(key, v)]
  | (k, w) :: rest, key, v =>
      if k = key then (k, v) :: rest else (k, w) :: setOrInsert rest key v

/-- Replay-buffer append with cap, the buffer update of the output reader,
`process_service.rs` lines 492-498: `extend_from_slice` then, when the length
exceeds `PTY_BUFFER_MAX_BYTES`, `drain(0..excess)` with
`excess = len - PTY_BUFFER_MAX_BYTES`. -/
def ptyBufferAppend (buf chunk : List Nat) : List Nat :=
  let b := buf ++ chunk
  if PTY_BUFFER_MAX_BYTES < b.length then
    b.drop (b.length - PTY_BUFFER_MAX_BYTES)
  else
    b

/-- Child argv construction, `ProcessManager::spawn_agent`, `process_service.rs`
lines 140-178.  `contains` on the Rust permission slice is list membership;
`allowed_tools.join(",")` is `String.intercalate ","`.  `freshUuid` stands for
the `uuid::Uuid::new_v4()` drawn when no prior session id is supplied. -/
def buildArgs (mode : AgentMode) (permissions : List Permission)
    (session_id : Option String) (freshUuid : String) : List String :=
  let args : List String := ["--verbose"]
  let args := match mode with
    | AgentMode.Auto => args ++ ["--dangerously-skip-permissions"]
    | AgentMode.Plan => args ++ ["--plan"]
    | AgentMode.Regular => args
  let allowed_tools : List String :=
    (if Permission.Write ∈ permissions then ["Write", "Edit"] else []) ++
    (if Permission.Execute ∈ permissions then ["Bash"] else [])
  let args :=
    if allowed_tools ≠ [] ∧ mode ≠ AgentMode.Auto then
      args ++ ["--allowedTools", String.intercalate "," allowed_tools]
    else args
  match session_id with
  | some sid => args ++ ["--resume", sid]
  | none => args ++ ["--session-id", freshUuid]

/-- Mode flags of the spec (§6): `Auto → --dangerously-skip-permissions`,
`Plan → --plan`; stated separately for the decomposition theorem. -/
def modeFlagsSpec : AgentMode → List String
  | AgentMode.Auto => ["--dangerously-skip-permissions"]
  | AgentMode.Plan => ["--plan"]
  | AgentMode.Regular => []

/-- The allowed-tools csv entries of the spec (§6): `"Write","Edit"` iff the
Write permission is present, `"Bash"` iff the Execute permission is present. -/
def allowedToolsSpec (permissions : List Permission) : List String :=
  (if Permission.Write ∈ permissions then ["Write", "Edit"] else []) ++
  (if Permission.Execute ∈ permissions then ["Bash"] else [])

/-- Permission flags as the code emits them: present exactly when the tool list
is non-empty and the mode is not `Auto`. -/
def toolFlagsSpec (mode : AgentMode) (permissions : List Permission) : List String :=
  if allowedToolsSpec permissions ≠ [] ∧ mode ≠ AgentMode.Auto then
    ["--allowedTools", String.intercalate "," (allowedToolsSpec permissions)]
  else []

/-- Session flags of the spec (§6): `--resume <token>` when a prior session
token is known, else `--session-id <fresh uuid>`. -/
def sessionFlagsSpec (session_id : Option String) (freshUuid : String) : List String :=
  match session_id with
  | some sid => ["--resume", sid]
  | none => ["--session-id", freshUuid]

/-- Decidable equality for `Except`, needed to evaluate registry operations on
concrete inputs. -/
instance {ε α : Type} [DecidableEq ε] [DecidableEq α] : DecidableEq (Except ε α) := fun a b =>
  match a, b with
  | Except.ok x, Except.ok y =>
    if h : x = y then Decidable.isTrue (by rw [h])
    else Decidable.isFalse (by intro hc; cases hc; exact h rfl)
  | Except.error x, Except.error y =>
    if h : x = y then Decidable.isTrue (by rw [h])
    else Decidable.isFalse (by intro hc; cases hc; exact h rfl)
  | Except.ok _, Except.error _ => Decidable.isFalse (by intro hc; cases hc)
  | Except.error _, Except.ok _ => Decidable.isFalse (by intro hc; cases hc)

/-- Environment a single `spawn_agent` call draws on: whether PTY allocation
and child exec succeed, the child pid, the fresh uuid, and the current instant. -/
structure SpawnEnv where
  ptyOk : Bool
  pid : Nat
  freshUuid : String
  now : Nat
deriving DecidableEq, Repr

/-- Everything a `spawn_agent` call produces: the updated registry, the emitted
events, the pid of a child it started (if any), the argv that child was started
with (if any), and the returned value. -/
structure SpawnOutcome where
  registry : Registry
  events : List ProcessEvent
  spawnedChild : Option Nat
  argv : Option (List String)
  result : Except ProcessError (Nat × String)
deriving DecidableEq, Repr

/-- The already-running check of `spawn_agent`, `process_service.rs` lines 130-138. -/
def alreadyRunning (m : Registry) (agent_id : String) : Bool :=
  match findRt m agent_id with
  | some runtime => runtime.process.isSome
  | none => false

/-- `ProcessManager::spawn_agent`, `process_service.rs` lines 121-280.
The guard clause is checked first; on the happy path the runtime entry is
inserted or updated with the fresh field values of lines 250-257 (buffer
cleared on restart) and a `Running` status event is emitted (lines 273-277).
`write_hook_settings` touches only the file system (non-fatal on failure) and
has no registry effect; PTY/exec failure is the `ptyOk = false` branch. -/
def spawn_agent (m : Registry) (env : SpawnEnv) (agent_id : String)
    (mode : AgentMode) (permissions : List Permission)
    (session_id : Option String) : SpawnOutcome :=
  if alreadyRunning m agent_id then
    { registry := m, events := [], spawnedChild := none, argv := none
      result := Except.error (ProcessError.AlreadyRunning agent_id) }
  else
    let args := buildArgs mode permissions session_id env.freshUuid
    let effective_session_id := match session_id with
      | some sid => sid
      | none => env.freshUuid
    if env.ptyOk = false then
      { registry := m, events := [], spawnedChild := none, argv := none
        result := Except.error (ProcessError.SpawnFailed "pty") }
    else
      let rt0 := match findRt m agent_id with
        | some rt => rt
        | none => rtInit
      let rt1 : AgentRuntime :=
        { rt0 with
          process := some { pid := env.pid, childExited := false }
          input_tx := some { closed := false }
          broadcast_tx := some 0
          pty_buffer := []
          last_output_time := some env.now
          is_idle := false
          hook_status_time := none
          session_id := some effective_session_id }
      { registry := setOrInsert m agent_id rt1
        events := [ProcessEvent.Status agent_id AgentStatus.Running none]
        spawnedChild := some env.pid
        argv := some args
        result := Except.ok (env.pid, effective_session_id) }

/-- `ProcessManager::send_message`, `process_service.rs` lines 283-301:
missing runtime or missing `input_tx` is `AgentNotFound`; a closed channel is
the `Io("PTY closed")` branch. -/
def send_message (m : Registry) (agent_id : String) (_content : String) :
    Except ProcessError Unit :=
  match findRt m agent_id with
  | none => Except.error (ProcessError.AgentNotFound agent_id)
  | some runtime =>
    match runtime.input_tx with
    | none => Except.error (ProcessError.AgentNotFound agent_id)
    | some tx =>
      if tx.closed then Except.error (ProcessError.Io "PTY closed")
      else Except.ok ()

/-- `ProcessManager::stop_agent`, `process_service.rs` lines 304-344.
`child.kill()` delivers `SIGKILL` and, per the process library, succeeds also
when the child has already exited but is not yet reaped, so the force branch
never fails in the model; the graceful branch sends `SIGINT` and leaves all
registry state to the exit poller. -/
def stop_agent (m : Registry) (agent_id : String) (force : Bool) :
    Registry × List ProcessEvent × Except ProcessError Unit :=
  match findRt m agent_id with
  | none => (m, [], Except.error (ProcessError.AgentNotFound agent_id))
  | some runtime =>
    match runtime.process with
    | none => (m, [], Except.error (ProcessError.AgentNotFound agent_id))
    | some _process =>
      if force then
        (setEntry m agent_id runtime.clear_active,
         [ProcessEvent.Exit agent_id none (some "SIGKILL")],
         Except.ok ())
      else
        (m, [], Except.ok ())

/-- `ProcessManager::subscribe_pty_output`, `process_service.rs` lines 382-392:
requires both the runtime entry and a live `broadcast_tx`; returns a fresh
receiver (modelled by the sender's tag) and a clone of the replay buffer. -/
def subscribe_pty_output (m : Registry) (agent_id : String) :
    Option (Nat × List Nat) := do
  let runtime ← findRt m agent_id
  let tx ← runtime.broadcast_tx
  pure (tx, runtime.pty_buffer)

/-- The runtime mutation of `ProcessManager::set_hook_status`,
`process_service.rs` lines 439-445: mark idle and stamp the hook time. -/
def applyHookStatus (r : AgentRuntime) (now : Nat) : AgentRuntime :=
  { r with is_idle := true, hook_status_time := some now }

/-- `ProcessManager::set_hook_status`, `process_service.rs` lines 438-456:
update the runtime when present, then emit the hook-reported status with its
reason string unconditionally. -/
def set_hook_status (m : Registry) (agent_id : String) (status : AgentStatus)
    (now : Nat) : Registry × List ProcessEvent :=
  let m' := match findRt m agent_id with
    | some runtime => setEntry m agent_id (applyHookStatus runtime now)
    | none => m
  let reason := match status with
    | AgentStatus.Waiting => "Hook: waiting for user input"
    | AgentStatus.Idle => "Hook: agent idle at prompt"
    | _ => "Hook: status update"
  (m', [ProcessEvent.Status agent_id status (some reason)])

/-- Worker for `strip_ansi_escapes`.  The flag is `true` while the scanner is
inside an `ESC [` (CSI) sequence, consuming bytes until the final byte in
`'@'..='~'`; with the flag `false` it is the main loop of `process_service.rs`
lines 711-735: on `ESC [` enter CSI mode, on `ESC` followed by any other
character skip that character, otherwise copy the character. -/
def stripAnsiAux : Bool → List Char → List Char
  | true, [] => []
  | true, c :: rest =>
      if '@' ≤ c ∧ c ≤ '~' then stripAnsiAux false rest
      else stripAnsiAux true rest
  | false, [] => []
  | false, c :: rest =>
      if c = '\x1b' then
        match rest with
        | [] => []
        | d :: rest2 =>
          if d = '[' then stripAnsiAux true rest2
          else stripAnsiAux false rest2
      else c :: stripAnsiAux false rest

/-- Strip ANSI escape sequences from a string, `strip_ansi_escapes`,
`process_service.rs` lines 711-735. -/
def strip_ansi_escapes (s : List Char) : List Char :=
  stripAnsiAux false s

/-- Rust `char::is_whitespace`: the Unicode `White_Space` property. -/
def rustIsWhitespace (c : Char) : Bool :=
  let n := c.toNat
  (0x9 ≤ n && n ≤ 0xD) || n == 0x20 || n == 0x85 || n == 0xA0 || n == 0x1680 ||
  (0x2000 ≤ n && n ≤ 0x200A) || n == 0x2028 || n == 0x2029 || n == 0x202F ||
  n == 0x205F || n == 0x3000

/-- Rust `str::trim_end`. -/
def rustTrimEnd (l : List Char) : List Char :=
  (l.reverse.dropWhile rustIsWhitespace).reverse

/-- Rust `str::trim_start`. -/
def rustTrimStart (l : List Char) : List Char :=
  l.dropWhile rustIsWhitespace

/-- Rust `str::trim` (both ends). -/
def rustTrim (l : List Char) : List Char :=
  rustTrimEnd (rustTrimStart l)

/-- Rust `str::contains(pattern)`: `pat` occurs as a contiguous substring of
`hay` (every string contains the empty string). -/
def containsSub : List Char → List Char → Bool
  | [], pat => pat.isEmpty
  | c :: t, pat => List.isPrefixOf pat (c :: t) || containsSub t pat

/-- Split on `'\n'`, keeping empty segments (the plain splitter underlying
Rust `str::lines`). -/
def splitNl : List Char → List (List Char)
  | [] => [[]]
  | c :: rest =>
    if c = '\n' then [] :: splitNl rest
    else
      match splitNl rest with
      | [] => [[c]]
      | h :: t => (c :: h) :: t

/-- Strip one trailing `'\r'` (Rust `str::lines` does this per line). -/
def stripTrailingCR (l : List Char) : List Char :=
  if l.getLast? = some '\r' then l.dropLast else l

/-- Rust `str::lines`: split on `'\n'`, drop the trailing empty segment that a
terminating newline (or the empty string) produces, strip one `'\r'` per line. -/
def rustLines (s : List Char) : List (List Char) :=
  let parts := splitNl s
  let parts := match parts.getLast? with
    | some [] => parts.dropLast
    | _ => parts
  parts.map stripTrailingCR

/-- Check if the terminal buffer tail looks like a prompt waiting for user
input, `is_waiting_prompt`, `process_service.rs` lines 738-768. -/
def is_waiting_prompt (text : List Char) : Bool :=
  let clean := strip_ansi_escapes text
  let trimmed := rustTrimEnd clean
  if containsSub trimmed ("[Y/n]".toList) || containsSub trimmed ("[y/N]".toList) ||
     containsSub trimmed ("(yes/no)".toList) || containsSub trimmed ("(y/n)".toList) then
    true
  else if containsSub trimmed ("Allow ".toList) || containsSub trimmed ("Approve".toList) ||
     containsSub trimmed ("Do you want".toList) then
    true
  else
    match (rustLines trimmed).reverse.find? (fun l => !(rustTrim l).isEmpty) with
    | some last_line => (rustTrim last_line).getLast? == some '?'
    | none => false

/-- Continuation byte test for UTF-8 decoding. -/
def isUtf8Cont (b : Nat) : Bool := 0x80 ≤ b && b < 0xC0

/-- The Unicode replacement character `U+FFFD`. -/
def replChar : Char := Char.ofNat 0xFFFD

/-- Fuel-driven worker for `utf8Lossy`; every step consumes at least one byte,
so fuel equal to the byte count is always enough. -/
def utf8LossyAux : Nat → List Nat → List Char
  | 0, _ => []
  | _ + 1, [] => []
  | fuel + 1, b :: rest =>
    if b < 0x80 then Char.ofNat b :: utf8LossyAux fuel rest
    else if b < 0xC2 then replChar :: utf8LossyAux fuel rest
    else if b < 0xE0 then
      match rest with
      | b2 :: rest2 =>
        if isUtf8Cont b2 then
          Char.ofNat ((b - 0xC0) * 0x40 + (b2 - 0x80)) :: utf8LossyAux fuel rest2
        else replChar :: utf8LossyAux fuel rest
      | [] => [replChar]
    else if b < 0xF0 then
      match rest with
      | b2 :: b3 :: rest3 =>
        if ((b == 0xE0 && 0xA0 ≤ b2 && b2 < 0xC0) ||
            (b == 0xED && 0x80 ≤ b2 && b2 < 0xA0) ||
            (b != 0xE0 && b != 0xED && isUtf8Cont b2)) && isUtf8Cont b3 then
          Char.ofNat ((b - 0xE0) * 0x1000 + (b2 - 0x80) * 0x40 + (b3 - 0x80)) ::
            utf8LossyAux fuel rest3
        else replChar :: utf8LossyAux fuel rest
      | _ => replChar :: utf8LossyAux fuel rest
    else if b < 0xF5 then
      match rest with
      | b2 :: b3 :: b4 :: rest4 =>
        if ((b == 0xF0 && 0x90 ≤ b2 && b2 < 0xC0) ||
            (b == 0xF4 && 0x80 ≤ b2 && b2 < 0x90) ||
            (b != 0xF0 && b != 0xF4 && isUtf8Cont b2)) &&
           isUtf8Cont b3 && isUtf8Cont b4 then
          Char.ofNat ((b - 0xF0) * 0x40000 + (b2 - 0x80) * 0x1000 +
            (b3 - 0x80) * 0x40 + (b4 - 0x80)) :: utf8LossyAux fuel rest4
        else replChar :: utf8LossyAux fuel rest
      | _ => replChar :: utf8LossyAux fuel rest
    else replChar :: utf8LossyAux fuel rest

/-- Stand-in for `String::from_utf8_lossy` (std library, external to the
repository): decodes well-formed UTF-8 exactly; a malformed byte becomes one
replacement character and decoding resumes at the next byte (std coalesces a
maximal invalid run into one replacement — a granularity no claim consults). -/
def utf8Lossy (l : List Nat) : List Char :=
  utf8LossyAux l.length l

/-- One iteration of the loop body of `ProcessManager::start_idle_monitor`,
`process_service.rs` lines 586-655, restricted to a single runtime (the map
lookup is the caller's concern).  Returns the updated runtime and the status
event payload the tick emits, if any.  The heuristic inspects the last 200
bytes of the replay buffer (`saturating_sub` is truncated `Nat` subtraction). -/
def idleMonitorTick (rt : AgentRuntime) (now : Nat) :
    AgentRuntime × Option (AgentStatus × String) :=
  if rt.process.isNone then (rt, none)
  else
    match rt.last_output_time with
    | none => (rt, none)
    | some last_time =>
      if 3 ≤ now - last_time ∧ rt.is_idle = false then
        let rt' := { rt with is_idle := true }
        let heuristic :=
          let tail_start := rt.pty_buffer.length - 200
          let text := utf8Lossy (rt.pty_buffer.drop tail_start)
          if is_waiting_prompt text then
            (AgentStatus.Waiting, "Waiting for user input")
          else
            (AgentStatus.Idle, "Agent idle at prompt")
        match rt.hook_status_time with
        | some hook_time =>
          if now - hook_time < 10 then (rt', none)
          else (rt', some heuristic)
        | none => (rt', some heuristic)
      else (rt, none)

/-- Iterate `idleMonitorTick` over a list of tick instants, collecting the
emitted status payloads in order. -/
def runTicks : AgentRuntime → List Nat → AgentRuntime × List (AgentStatus × String)
  | rt, [] => (rt, [])
  | rt, t :: ts =>
    match idleMonitorTick rt t with
    | (rt', none) => runTicks rt' ts
    | (rt', some e) =>
      match runTicks rt' ts with
      | (rtf, es) => (rtf, e :: es)

/-- The runtime mutation a byte arrival performs in the output reader,
`ProcessManager::start_output_reader`, `process_service.rs` lines 476-499:
stamp `last_output_time`, reset the hook state, flip a set idle flag back to
`Running` (emitting a status event), and append the chunk to the replay buffer
under the cap.  The broadcast of the chunk happens outside the lock and does
not touch the runtime. -/
def byteArrival (agent_id : String) (rt : AgentRuntime) (chunk : List Nat)
    (now : Nat) : AgentRuntime × List ProcessEvent :=
  let rt1 := { rt with last_output_time := some now, hook_status_time := none }
  let step2 :=
    if rt1.is_idle then
      ({ rt1 with is_idle := false },
       [ProcessEvent.Status agent_id AgentStatus.Running none])
    else (rt1, ([] : List ProcessEvent))
  let rt2 := step2.1
  ({ rt2 with pty_buffer := ptyBufferAppend rt2.pty_buffer chunk }, step2.2)

/-- The operations of the runtime's own lifecycle, as named by the reachability
claim: spawn field-initialization (`process_service.rs` lines 250-257), byte
arrival in the output reader, hook notification, force-stop, exit-poller
teardown, and `clear_active` itself. -/
inductive RtOp
  | spawnInit (pid : Nat) (now : Nat) (sid : String)
  | byteArrive (chunk : List Nat) (now : Nat)
  | hookNotify (now : Nat)
  | forceStop
  | pollerExit
  | clearActive
deriving DecidableEq, Repr

/-- Apply one runtime operation.  `forceStop` mutates only when a process
handle is present (`stop_agent` errors out before mutating otherwise);
`pollerExit` is the poller's `clear_active` on observing child exit. -/
def applyRtOp (rt : AgentRuntime) : RtOp → AgentRuntime
  | RtOp.spawnInit pid now sid =>
    { rt with
      process := some { pid := pid, childExited := false }
      input_tx := some { closed := false }
      broadcast_tx := some 0
      pty_buffer := []
      last_output_time := some now
      is_idle := false
      hook_status_time := none
      session_id := some sid }
  | RtOp.byteArrive chunk now => (byteArrival "" rt chunk now).1
  | RtOp.hookNotify now => applyHookStatus rt now
  | RtOp.forceStop => if rt.process.isSome then rt.clear_active else rt
  | RtOp.pollerExit => rt.clear_active
  | RtOp.clearActive => rt.clear_active

/-- A runtime whose exit the poller has already handled: active fields cleared,
replay buffer and session id retained. -/
def rtCleared : AgentRuntime :=
  { rtInit with pty_buffer := [1, 2, 3], session_id := some "s" }

/-- A runtime with a live spawned process, as `spawn_agent` initializes it. -/
def rtActive : AgentRuntime :=
  { rtInit with
    process := some { pid := 7, childExited := false }
    input_tx := some { closed := false }
    broadcast_tx := some 0
    last_output_time := some 0
    session_id := some "s" }

/-- A runtime whose child has terminated but whose exit the poller has not yet
observed: the process handle is still present. -/
def rtDead : AgentRuntime :=
  { rtActive with process := some { pid := 7, childExited := true } }

/-- The §4.5.1 waiting predicate stated on the ANSI-stripped and end-trimmed
text: one of the seven marker substrings occurs, or the last non-empty trimmed
line ends with a question mark. -/
def waitingHeuristicSpec (text : List Char) : Bool :=
  let t := rustTrimEnd (strip_ansi_escapes text)
  containsSub t ("[Y/n]".toList) || containsSub t ("[y/N]".toList) ||
  containsSub t ("(yes/no)".toList) || containsSub t ("(y/n)".toList) ||
  containsSub t ("Allow ".toList) || containsSub t ("Approve".toList) ||
  containsSub t ("Do you want".toList) ||
  (match (rustLines t).reverse.find? (fun l => !(rustTrim l).isEmpty) with
   | some last_line => (rustTrim last_line).getLast? == some '?'
   | none => false)

/-- The mended field-coupling invariant: the three channel-carrying fields are
all `some` or all `none`, and a live process implies a last-output timestamp. -/
def coupledInv (rt : AgentRuntime) : Prop :=
  rt.process.isSome = rt.input_tx.isSome ∧
  rt.input_tx.isSome = rt.broadcast_tx.isSome ∧
  (rt.process.isSome = true → rt.last_output_time.isSome = true)

/-! ## Helper lemmas -/

/-- The buffer append is a tail-window: it always equals dropping the overflow
from the front of the concatenation. -/
theorem ptyBufferAppend_eq_drop (buf chunk : List Nat) :
    ptyBufferAppend buf chunk
      = (buf ++ chunk).drop ((buf ++ chunk).length - PTY_BUFFER_MAX_BYTES) := by
  simp only [ptyBufferAppend]
  split
  · rfl
  · next h =>
    have h0 : (buf ++ chunk).length - PTY_BUFFER_MAX_BYTES = 0 := by omega
    rw [h0, List.drop_zero]

/-- Length of the capped append. -/
theorem ptyBufferAppend_length (buf chunk : List Nat) :
    (ptyBufferAppend buf chunk).length
      = min (buf.length + chunk.length) PTY_BUFFER_MAX_BYTES := by
  rw [ptyBufferAppend_eq_drop]
  simp [List.length_drop]
  omega

/-- A byte arrival appends the chunk to the replay buffer under the cap. -/
theorem byteArrival_fst_pty_buffer (agent_id : String) (rt : AgentRuntime)
    (chunk : List Nat) (now : Nat) :
    (byteArrival agent_id rt chunk now).1.pty_buffer
      = ptyBufferAppend rt.pty_buffer chunk := by
  simp only [byteArrival]
  split <;> rfl

/-- A byte arrival leaves the three channel fields untouched and stamps the
output time. -/
theorem byteArrival_fst_fields (agent_id : String) (rt : AgentRuntime)
    (chunk : List Nat) (now : Nat) :
    (byteArrival agent_id rt chunk now).1.process = rt.process ∧
    (byteArrival agent_id rt chunk now).1.input_tx = rt.input_tx ∧
    (byteArrival agent_id rt chunk now).1.broadcast_tx = rt.broadcast_tx ∧
    (byteArrival agent_id rt chunk now).1.last_output_time = some now := by
  simp only [byteArrival]
  split <;> simp

/-- Every runtime operation keeps the replay buffer within the cap, from any
starting buffer already within the cap. -/
theorem applyRtOp_buffer_le (rt : AgentRuntime) (op : RtOp)
    (h : rt.pty_buffer.length ≤ PTY_BUFFER_MAX_BYTES) :
    (applyRtOp rt op).pty_buffer.length ≤ PTY_BUFFER_MAX_BYTES := by
  cases op with
  | spawnInit pid now sid => simp [applyRtOp]
  | byteArrive chunk now =>
    simp only [applyRtOp]
    rw [byteArrival_fst_pty_buffer, ptyBufferAppend_length]
    omega
  | hookNotify now => simpa [applyRtOp, applyHookStatus] using h
  | forceStop =>
    simp only [applyRtOp]
    split <;> simpa [AgentRuntime.clear_active] using h
  | pollerExit => simpa [applyRtOp, AgentRuntime.clear_active] using h
  | clearActive => simpa [applyRtOp, AgentRuntime.clear_active] using h

/-- Buffer-cap invariant over arbitrary operation sequences. -/
theorem foldl_buffer_le (ops : List RtOp) (rt : AgentRuntime)
    (h : rt.pty_buffer.length ≤ PTY_BUFFER_MAX_BYTES) :
    ((ops.foldl applyRtOp rt).pty_buffer).length ≤ PTY_BUFFER_MAX_BYTES := by
  induction ops generalizing rt with
  | nil => simpa using h
  | cons op ops ih => exact ih (applyRtOp rt op) (applyRtOp_buffer_le rt op h)

/-- Updating the entry found under a key makes the new value the lookup result. -/
theorem findRt_setEntry_self (m : Registry) (k : String) (rt v : AgentRuntime)
    (h : findRt m k = some rt) : findRt (setEntry m k v) k = some v := by
  induction m with
  | nil => simp [findRt] at h
  | cons p rest ih =>
    obtain ⟨k0, w⟩ := p
    by_cases hk : k0 = k
    · simp [findRt, setEntry, hk]
    · simp only [findRt, setEntry, if_neg hk] at h ⊢
      exact ih h

/-- A tick of the idle monitor on a runtime already marked idle does nothing
and emits nothing. -/
theorem idleMonitorTick_of_idle (rt : AgentRuntime) (now : Nat)
    (h : rt.is_idle = true) : idleMonitorTick rt now = (rt, none) := by
  unfold idleMonitorTick
  split
  · rfl
  · cases hl : rt.last_output_time with
    | none => rfl
    | some last_time => simp [h]

/-- A tick of the idle monitor never emits while a hook status is less than
ten seconds old. -/
theorem idleMonitorTick_hook_fresh (rt : AgentRuntime) (now ht : Nat)
    (h2 : rt.hook_status_time = some ht) (h3 : now - ht < 10) :
    (idleMonitorTick rt now).2 = none := by
  unfold idleMonitorTick
  split
  · rfl
  · cases hl : rt.last_output_time with
    | none => rfl
    | some last_time =>
      split
      · simp
      · split
        · rw [h2]
          simp [h3]
        · rfl

/-- Any sequence of idle-monitor ticks on a runtime already marked idle leaves
it unchanged and emits nothing. -/
theorem runTicks_of_idle (rt : AgentRuntime) (h : rt.is_idle = true)
    (ts : List Nat) : runTicks rt ts = (rt, []) := by
  induction ts with
  | nil => rfl
  | cons t ts ih =>
    unfold runTicks
    rw [idleMonitorTick_of_idle rt t h]
    exact ih

/-- Unfolding: an ordinary character is copied and scanning continues. -/
theorem stripAnsiAux_false_cons (c : Char) (rest : List Char) (hc : c ≠ '\x1b') :
    stripAnsiAux false (c :: rest) = c :: stripAnsiAux false rest := by
  cases rest <;> simp [stripAnsiAux, hc]

/-- Unfolding: `ESC [` enters CSI-skipping mode. -/
theorem stripAnsiAux_esc_csi (rest2 : List Char) :
    stripAnsiAux false ('\x1b' :: '[' :: rest2) = stripAnsiAux true rest2 := by
  simp [stripAnsiAux]

/-- Unfolding: `ESC` plus any other character skips that character. -/
theorem stripAnsiAux_esc_other (d : Char) (rest2 : List Char) (hd : d ≠ '[') :
    stripAnsiAux false ('\x1b' :: d :: rest2) = stripAnsiAux false rest2 := by
  simp [stripAnsiAux, hd]

/-- Unfolding: a trailing `ESC` is dropped. -/
theorem stripAnsiAux_esc_nil : stripAnsiAux false ['\x1b'] = [] := by
  simp [stripAnsiAux]

/-- Unfolding: CSI-skipping consumes until a final byte. -/
theorem stripAnsiAux_true_cons (c : Char) (rest : List Char) :
    stripAnsiAux true (c :: rest)
      = if '@' ≤ c ∧ c ≤ '~' then stripAnsiAux false rest
        else stripAnsiAux true rest := by
  simp only [stripAnsiAux]

/-- The escape character never survives ANSI stripping. -/
theorem stripAnsiAux_esc_notMem :
    ∀ (n : Nat) (l : List Char) (b : Bool), l.length ≤ n →
      '\x1b' ∉ stripAnsiAux b l := by
  intro n
  induction n with
  | zero =>
    intro l b hl
    have : l = [] := List.length_eq_zero.mp (Nat.le_zero.mp hl)
    subst this
    cases b <;> simp [stripAnsiAux]
  | succ n ih =>
    intro l b hl
    cases l with
    | nil => cases b <;> simp [stripAnsiAux]
    | cons c rest =>
      have hr : rest.length ≤ n := by
        simp [List.length_cons] at hl; omega
      cases b with
      | true =>
        rw [stripAnsiAux_true_cons]
        split
        · exact ih rest false hr
        · exact ih rest true hr
      | false =>
        by_cases hc : c = '\x1b'
        · subst hc
          cases rest with
          | nil => simp [stripAnsiAux]
          | cons d rest2 =>
            have hr2 : rest2.length ≤ n := by
              simp [List.length_cons] at hl; omega
            by_cases hd : d = '['
            · subst hd
              rw [stripAnsiAux_esc_csi]
              exact ih rest2 true hr2
            · rw [stripAnsiAux_esc_other d rest2 hd]
              exact ih rest2 false hr2
        · rw [stripAnsiAux_false_cons c rest hc]
          intro hmem
          cases hmem with
          | head => exact hc rfl
          | tail _ hm => exact ih rest false hr hm

/-- Stripping is the identity on text free of the escape character. -/
theorem stripAnsiAux_eq_self (l : List Char) (h : '\x1b' ∉ l) :
    stripAnsiAux false l = l := by
  induction l with
  | nil => simp [stripAnsiAux]
  | cons c rest ih =>
    have hc : c ≠ '\x1b' := fun hce => h (hce ▸ List.mem_cons_self c rest)
    have hrest : '\x1b' ∉ rest := fun hm => h (List.mem_cons_of_mem c hm)
    rw [stripAnsiAux_false_cons c rest hc, ih hrest]

/-- ANSI stripping is idempotent. -/
theorem strip_ansi_escapes_idem (x : List Char) :
    strip_ansi_escapes (strip_ansi_escapes x) = strip_ansi_escapes x := by
  unfold strip_ansi_escapes
  exact stripAnsiAux_eq_self _
    (stripAnsiAux_esc_notMem x.length x false (Nat.le_refl _))

/-- Two texts with the same stripped form get the same verdict from the
prompt heuristic. -/
theorem is_waiting_prompt_congr (x y : List Char)
    (h : strip_ansi_escapes x = strip_ansi_escapes y) :
    is_waiting_prompt x = is_waiting_prompt y := by
  unfold is_waiting_prompt
  rw [h]

/-- The prompt heuristic agrees with the spec predicate stated on the stripped
and end-trimmed text. -/
theorem is_waiting_prompt_eq_spec (text : List Char) :
    is_waiting_prompt text = waitingHeuristicSpec text := by
  have hif : ∀ (x y : Bool), (if x then true else y) = (x || y) := by decide
  unfold is_waiting_prompt waitingHeuristicSpec
  rw [hif, hif]
  simp [Bool.or_assoc]

/-- Every runtime operation preserves the mended coupling invariant. -/
theorem coupledInv_applyRtOp (rt : AgentRuntime) (op : RtOp)
    (h : coupledInv rt) : coupledInv (applyRtOp rt op) := by
  obtain ⟨h1, h2, h3⟩ := h
  cases op with
  | spawnInit pid now sid => simp [applyRtOp, coupledInv]
  | byteArrive chunk now =>
    obtain ⟨hp, hi, hb, hl⟩ := byteArrival_fst_fields "" rt chunk now
    simp only [applyRtOp]
    refine ⟨?_, ?_, ?_⟩
    · rw [hp, hi]; exact h1
    · rw [hi, hb]; exact h2
    · intro _; rw [hl]; rfl
  | hookNotify now =>
    exact ⟨h1, h2, h3⟩
  | forceStop =>
    simp only [applyRtOp]
    split
    · simp [coupledInv, AgentRuntime.clear_active]
    · exact ⟨h1, h2, h3⟩
  | pollerExit => simp [applyRtOp, coupledInv, AgentRuntime.clear_active]
  | clearActive => simp [applyRtOp, coupledInv, AgentRuntime.clear_active]

/-- The mended coupling invariant holds after any operation sequence from any
state satisfying it. -/
theorem foldl_coupledInv (ops : List RtOp) (rt : AgentRuntime)
    (h : coupledInv rt) : coupledInv (ops.foldl applyRtOp rt) := by
  induction ops generalizing rt with
  | nil => simpa using h
  | cons op ops ih => exact ih (applyRtOp rt op) (coupledInv_applyRtOp rt op h)

/-! ## Claim theorems -/

/-- C1: replay-buffer append respects the 1 MiB cap with oldest-first eviction.
For every prior buffer and chunk the post-append contents are the last
`min (old_len + chunk_len) 1048576` bytes of the concatenation, so the length
equals that minimum and never exceeds the cap — also across arbitrary runtime
operation sequences from the initial state; and appending 4096 bytes of `0x01`
to a buffer of 1048576 bytes of `0x00` yields length 1048576, the last 4096
bytes all `0x01`, and first byte `0x00`. -/
theorem c1_replay_buffer_cap :
    (∀ buf chunk : List Nat,
      ptyBufferAppend buf chunk
        = (buf ++ chunk).drop
            ((buf.length + chunk.length)
              - min (buf.length + chunk.length) PTY_BUFFER_MAX_BYTES)
      ∧ (ptyBufferAppend buf chunk).length
          = min (buf.length + chunk.length) PTY_BUFFER_MAX_BYTES
      ∧ (ptyBufferAppend buf chunk).length ≤ PTY_BUFFER_MAX_BYTES)
    ∧ (∀ ops : List RtOp,
        ((ops.foldl applyRtOp rtInit).pty_buffer).length ≤ PTY_BUFFER_MAX_BYTES)
    ∧ (ptyBufferAppend (List.replicate PTY_BUFFER_MAX_BYTES 0)
         (List.replicate 4096 1)).length = PTY_BUFFER_MAX_BYTES
    ∧ (ptyBufferAppend (List.replicate PTY_BUFFER_MAX_BYTES 0)
         (List.replicate 4096 1)).drop (PTY_BUFFER_MAX_BYTES - 4096)
        = List.replicate 4096 1
    ∧ (ptyBufferAppend (List.replicate PTY_BUFFER_MAX_BYTES 0)
         (List.replicate 4096 1)).head? = some 0 := by
  have happ : ptyBufferAppend (List.replicate PTY_BUFFER_MAX_BYTES (0 : Nat))
      (List.replicate 4096 1)
      = List.replicate 1044480 0 ++ List.replicate 4096 1 := by
    rw [ptyBufferAppend_eq_drop]
    have hsplit : List.replicate PTY_BUFFER_MAX_BYTES (0 : Nat)
        = List.replicate 4096 0 ++ List.replicate 1044480 0 := by
      rw [← List.replicate_add]
      norm_num [PTY_BUFFER_MAX_BYTES]
    have hlen : (List.replicate PTY_BUFFER_MAX_BYTES (0 : Nat)
        ++ List.replicate 4096 1).length - PTY_BUFFER_MAX_BYTES = 4096 := by
      simp only [List.length_append, List.length_replicate]
      omega
    rw [hlen, hsplit, List.append_assoc]
    exact List.drop_left' (by simp only [List.length_replicate])
  refine ⟨?_, ?_, ?_, ?_, ?_⟩
  · intro buf chunk
    refine ⟨?_, ptyBufferAppend_length buf chunk, ?_⟩
    · rw [ptyBufferAppend_eq_drop]
      have hidx : (buf ++ chunk).length - PTY_BUFFER_MAX_BYTES
          = (buf.length + chunk.length)
              - min (buf.length + chunk.length) PTY_BUFFER_MAX_BYTES := by
        simp only [List.length_append]
        omega
      rw [hidx]
    · rw [ptyBufferAppend_length]
      omega
  · intro ops
    exact foldl_buffer_le ops rtInit (Nat.zero_le _)
  · rw [happ]
    simp only [List.length_append, List.length_replicate]
    norm_num [PTY_BUFFER_MAX_BYTES]
  · have hidx : PTY_BUFFER_MAX_BYTES - 4096 = 1044480 := by
      norm_num [PTY_BUFFER_MAX_BYTES]
    rw [happ, hidx]
    exact List.drop_left' (by simp only [List.length_replicate])
  · rw [happ]
    have h480 : List.replicate 1044480 (0 : Nat) = 0 :: List.replicate 1044479 0 := by
      rw [show (1044480 : Nat) = 1044479 + 1 by norm_num, List.replicate_succ]
    rw [h480]
    simp only [List.cons_append, List.head?_cons]

/-- C2: `clear_active` is exactly a frame-preserving reset: the six active
fields are cleared while `pty_buffer` and `session_id` keep their pre-call
values, for every runtime state. -/
theorem c2_clear_active_frame (r : AgentRuntime) :
    r.clear_active.process = none ∧
    r.clear_active.input_tx = none ∧
    r.clear_active.broadcast_tx = none ∧
    r.clear_active.last_output_time = none ∧
    r.clear_active.is_idle = false ∧
    r.clear_active.hook_status_time = none ∧
    r.clear_active.pty_buffer = r.pty_buffer ∧
    r.clear_active.session_id = r.session_id :=
  ⟨rfl, rfl, rfl, rfl, rfl, rfl, rfl, rfl⟩

/-- C3: single-spawn guard — when the runtime of `agent_id` holds a live
process, `spawn_agent` returns `AlreadyRunning`, starts no child, builds no
argv for one, emits nothing, and leaves the registry untouched. -/
theorem c3_spawn_single_guard (m : Registry) (env : SpawnEnv) (agent_id : String)
    (mode : AgentMode) (permissions : List Permission) (session_id : Option String)
    (rt : AgentRuntime) (h1 : findRt m agent_id = some rt)
    (h2 : rt.process.isSome = true) :
    spawn_agent m env agent_id mode permissions session_id
      = { registry := m, events := [], spawnedChild := none, argv := none
          result := Except.error (ProcessError.AlreadyRunning agent_id) } := by
  have hrun : alreadyRunning m agent_id = true := by
    unfold alreadyRunning
    rw [h1]
    exact h2
  unfold spawn_agent
  rw [hrun]
  rfl

/-- Witness for C3 at a concrete registry holding a live runtime. -/
theorem c3_spawn_single_guard_witness :
    spawn_agent [("a", rtActive)] ⟨true, 9, "u", 5⟩ "a" AgentMode.Regular [] none
      = { registry := [("a", rtActive)], events := [], spawnedChild := none
          argv := none
          result := Except.error (ProcessError.AlreadyRunning "a") } :=
  c3_spawn_single_guard [("a", rtActive)] ⟨true, 9, "u", 5⟩ "a" AgentMode.Regular
    [] none rtActive (by decide) (by decide)

/-- C4 counterexample: in `Plan` mode with the Write permission the built argv
does contain `--allowedTools` (with csv `Write,Edit`), contradicting the
claim's assertion that Plan mode produces no `--allowedTools` flag. -/
theorem c4_argv_counterexample :
    buildArgs AgentMode.Plan [Permission.Write] none "fresh-uuid"
      = ["--verbose", "--plan", "--allowedTools", "Write,Edit",
         "--session-id", "fresh-uuid"] ∧
    "--allowedTools" ∈ buildArgs AgentMode.Plan [Permission.Write] none "fresh-uuid" := by
  constructor
  · rfl
  · decide

/-- C4 (amended): the argv always decomposes as `--verbose`, then the mode
flags (`Auto → --dangerously-skip-permissions`, `Plan → --plan`), then
`--allowedTools <csv>` exactly when the permission-derived tool list is
non-empty and the mode is not `Auto` (so also in Plan mode), then `--resume
<token>` when a prior session token is supplied and `--session-id <fresh uuid>`
otherwise; the csv list contains `Write`/`Edit` iff Write is present and
`Bash` iff Execute is present. -/
theorem c4_argv_amended (mode : AgentMode) (permissions : List Permission)
    (session_id : Option String) (freshUuid : String) :
    buildArgs mode permissions session_id freshUuid
      = ["--verbose"] ++ modeFlagsSpec mode ++ toolFlagsSpec mode permissions
          ++ sessionFlagsSpec session_id freshUuid
    ∧ toolFlagsSpec AgentMode.Auto permissions = []
    ∧ ("Write" ∈ allowedToolsSpec permissions ↔ Permission.Write ∈ permissions)
    ∧ ("Edit" ∈ allowedToolsSpec permissions ↔ Permission.Write ∈ permissions)
    ∧ ("Bash" ∈ allowedToolsSpec permissions ↔ Permission.Execute ∈ permissions) := by
  refine ⟨?_, ?_, ?_, ?_, ?_⟩
  · unfold buildArgs modeFlagsSpec toolFlagsSpec sessionFlagsSpec allowedToolsSpec
    cases mode <;> cases session_id <;>
      by_cases hw : Permission.Write ∈ permissions <;>
      by_cases he : Permission.Execute ∈ permissions <;>
      simp [hw, he]
  · simp [toolFlagsSpec]
  · unfold allowedToolsSpec
    by_cases hw : Permission.Write ∈ permissions <;>
      by_cases he : Permission.Execute ∈ permissions <;> simp [hw, he]
  · unfold allowedToolsSpec
    by_cases hw : Permission.Write ∈ permissions <;>
      by_cases he : Permission.Execute ∈ permissions <;> simp [hw, he]
  · unfold allowedToolsSpec
    by_cases hw : Permission.Write ∈ permissions <;>
      by_cases he : Permission.Execute ∈ permissions <;> simp [hw, he]

/-- C5: after a successful force-stop the registry holds the cleared runtime,
the call's events are exactly the `Exit` with the hard-kill signal, a
subsequent `subscribe_pty_output` returns `none`, and a subsequent
`send_message` returns `AgentNotFound`. -/
theorem c5_force_stop_observability (m : Registry) (agent_id content : String)
    (rt : AgentRuntime) (h1 : findRt m agent_id = some rt)
    (h2 : rt.process.isSome = true) :
    stop_agent m agent_id true
      = (setEntry m agent_id rt.clear_active,
         [ProcessEvent.Exit agent_id none (some "SIGKILL")], Except.ok ())
    ∧ subscribe_pty_output (setEntry m agent_id rt.clear_active) agent_id = none
    ∧ send_message (setEntry m agent_id rt.clear_active) agent_id content
        = Except.error (ProcessError.AgentNotFound agent_id) := by
  obtain ⟨p, hp⟩ := Option.isSome_iff_exists.mp h2
  have hfind : findRt (setEntry m agent_id rt.clear_active) agent_id
      = some rt.clear_active := findRt_setEntry_self m agent_id rt _ h1
  refine ⟨?_, ?_, ?_⟩
  · unfold stop_agent
    simp only [h1, hp, if_true]
  · unfold subscribe_pty_output
    simp only [hfind]
    rfl
  · unfold send_message
    simp only [hfind]
    rfl

/-- Witness for C5 at a concrete one-agent registry with a live process. -/
theorem c5_force_stop_observability_witness :
    stop_agent [("a", rtActive)] "a" true
      = (setEntry [("a", rtActive)] "a" rtActive.clear_active,
         [ProcessEvent.Exit "a" none (some "SIGKILL")], Except.ok ())
    ∧ subscribe_pty_output (setEntry [("a", rtActive)] "a" rtActive.clear_active) "a"
        = none
    ∧ send_message (setEntry [("a", rtActive)] "a" rtActive.clear_active) "a" "hi"
        = Except.error (ProcessError.AgentNotFound "a") :=
  c5_force_stop_observability [("a", rtActive)] "a" "hi" rtActive
    (by decide) (by decide)

/-- C6 counterexample: once the exit poller has observed the exit and cleared
the process handle (`process = none`), a force-stop returns `AgentNotFound`
rather than success. -/
theorem c6_counterexample :
    findRt [("a", rtCleared)] "a" = some rtCleared ∧
    rtCleared.process = none ∧
    stop_agent [("a", rtCleared)] "a" true
      = ([("a", rtCleared)], [], Except.error (ProcessError.AgentNotFound "a")) := by
  refine ⟨by decide, by decide, by decide⟩

/-- C6 (amended): a force-stop that finds a dead child whose process handle is
still present (exit not yet observed by the poller) succeeds. -/
theorem c6_force_stop_dead_child (m : Registry) (agent_id : String)
    (rt : AgentRuntime) (p : AgentProcess) (h1 : findRt m agent_id = some rt)
    (h2 : rt.process = some p) (h3 : p.childExited = true) :
    (stop_agent m agent_id true).2.2 = Except.ok () := by
  unfold stop_agent
  simp only [h1, h2, if_true]

/-- Witness for the amended C6 at a concrete registry holding a dead,
unreaped child. -/
theorem c6_force_stop_dead_child_witness :
    (stop_agent [("a", rtDead)] "a" true).2.2 = Except.ok () :=
  c6_force_stop_dead_child [("a", rtDead)] "a" rtDead
    { pid := 7, childExited := true } (by decide) (by decide) (by decide)

/-- C7: fresh-hook suppression — after a hook notification marks the runtime
(`is_idle = true`, `hook_status_time = now`), any sequence of idle-monitor
ticks within the ten-second hook window and before any byte arrival leaves the
runtime unchanged and emits no heuristic status; moreover no tick on any
runtime whose hook status is less than ten seconds old emits anything. -/
theorem c7_hook_suppression (rt rt2 : AgentRuntime) (now n2 ht : Nat)
    (ts : List Nat) (hts : ∀ t ∈ ts, t - now < 10)
    (h2 : rt2.hook_status_time = some ht) (h3 : n2 - ht < 10) :
    runTicks (applyHookStatus rt now) ts = (applyHookStatus rt now, [])
    ∧ (idleMonitorTick rt2 n2).2 = none := by
  constructor
  · exact runTicks_of_idle (applyHookStatus rt now) rfl ts
  · exact idleMonitorTick_hook_fresh rt2 n2 ht h2 h3

/-- Witness for C7: a hooked active runtime, two ticks inside the window. -/
theorem c7_hook_suppression_witness :
    runTicks (applyHookStatus rtActive 4) [5, 6] = (applyHookStatus rtActive 4, [])
    ∧ (idleMonitorTick (applyHookStatus rtActive 4) 9).2 = none :=
  c7_hook_suppression rtActive (applyHookStatus rtActive 4) 4 9 4 [5, 6]
    (by decide) (by decide) (by decide)

/-- C8 counterexample: on the input `"Allow "` the stripped text contains the
marker substring `"Allow "`, yet `is_waiting_prompt` returns `false` (the code
end-trims the stripped text before the substring checks), refuting the claimed
equivalence as stated. -/
theorem c8_counterexample :
    containsSub (strip_ansi_escapes ("Allow ".toList)) ("Allow ".toList) = true
    ∧ is_waiting_prompt ("Allow ".toList) = false := by
  refine ⟨by decide, by decide⟩

/-- C8 (amended): `is_waiting_prompt` returns true iff, after ANSI stripping
AND trailing-whitespace trimming, the text contains one of the marker
substrings or its last non-empty trimmed line ends with `'?'`; the listed
concrete inputs evaluate as the claim states. -/
theorem c8_waiting_prompt_amended :
    (∀ text : List Char, is_waiting_prompt text = waitingHeuristicSpec text)
    ∧ is_waiting_prompt ("Continue? [Y/n]".toList) = true
    ∧ is_waiting_prompt ("Allow read access?".toList) = true
    ∧ is_waiting_prompt ("Do you want to proceed?".toList) = true
    ∧ is_waiting_prompt ("Approve this action".toList) = true
    ∧ is_waiting_prompt ("Continue? (yes/no)".toList) = true
    ∧ is_waiting_prompt ("Processing...".toList) = false
    ∧ is_waiting_prompt ("".toList) = false := by
  refine ⟨is_waiting_prompt_eq_spec, by decide, by decide, by decide, by decide,
    by decide, by decide, by decide⟩

/-- C9: the prompt heuristic is invariant under pre-stripping its input, and
ANSI stripping is idempotent. -/
theorem c9_strip_roundtrip :
    (∀ x : List Char,
      is_waiting_prompt (strip_ansi_escapes x) = is_waiting_prompt x)
    ∧ (∀ x : List Char,
        strip_ansi_escapes (strip_ansi_escapes x) = strip_ansi_escapes x) := by
  constructor
  · intro x
    exact is_waiting_prompt_congr (strip_ansi_escapes x) x (strip_ansi_escapes_idem x)
  · exact strip_ansi_escapes_idem

/-- C10 counterexample: a byte arrival applied to the initial (all-`None`,
equivalently just-cleared) runtime stamps `last_output_time` while the process,
input and broadcast handles stay `none`, so the claimed four-way all-`Some`/
all-`None` coupling fails at a state reachable by one operation. -/
theorem c10_counterexample :
    (applyRtOp rtInit (RtOp.byteArrive [0] 5)).process = none
    ∧ (applyRtOp rtInit (RtOp.byteArrive [0] 5)).input_tx = none
    ∧ (applyRtOp rtInit (RtOp.byteArrive [0] 5)).broadcast_tx = none
    ∧ (applyRtOp rtInit (RtOp.byteArrive [0] 5)).last_output_time = some 5 := by
  refine ⟨by decide, by decide, by decide, by decide⟩

/-- C10 (amended): over every operation sequence from the initial state,
`process`, `input_tx` and `broadcast_tx` are all `some` or all `none`, and a
live process always has a `last_output_time` stamp — but a late byte arrival
may leave `last_output_time` set on a cleared runtime. -/
theorem c10_coupling_amended (ops : List RtOp) :
    coupledInv (ops.foldl applyRtOp rtInit) :=
  foldl_coupledInv ops rtInit ⟨rfl, rfl, fun h => by simp [rtInit] at h⟩

end CCManager
